import Mathlib

/-!
Verification development for the family-tracker backend core: the token
codec, the session protocol (refresh rotation, password change, the
anti-forgery gate), the live broker, and the lens access resolvers.
Python source files are embedded shallowly: pure functions become Lean
functions, database state becomes explicit record lists, stdlib crypto and
serialization primitives (hmac, base64, json, uuid) become explicit
function parameters gathered in a `Codec` structure, with the properties
the proofs need stated as hypotheses at the points of use.
-/

namespace FamilyTracker

/-- JSON values as relevant to token payloads handled by `security.py`:
integers, strings, booleans, null. -/
inductive JVal where
  | jint (n : Int)
  | jstr (s : String)
  | jbool (b : Bool)
  | jnull
deriving DecidableEq, Repr

/-- A JSON object in insertion order, as produced by parsing into a Python
dict: an association list from keys to values (duplicate-free in practice,
first binding wins on lookup). -/
abbrev Claims := List (String × JVal)

/-- Byte strings (`bytes` in Python): lists of byte values. -/
abbrev Bytes := List Nat

/-- Character strings (`str` in Python), modelled as lists of characters so
that splitting on a separator can be reasoned about directly. -/
abbrev Str := List Char

/-- Python `payload.get(key)`: the first binding for `key`, if any. -/
def getClaim (c : Claims) (k : String) : Option JVal :=
  (c.find? (fun kv => kv.fst == k)).map Prod.snd

/-- Python dict update `{**payload, key: v}`: replaces the (first) binding
in place when the key is present, appends the binding otherwise. -/
def setClaim : Claims → String → JVal → Claims
  | [], k, v => [(k, v)]
  | kv :: rest, k, v =>
    if kv.fst = k then (k, v) :: rest else kv :: setClaim rest k v

/-- Python `isinstance(v, int)`: true for integers and, by Python's type
hierarchy, for booleans as well. -/
def pyIsInt : JVal → Bool
  | .jint _ => true
  | .jbool _ => true
  | _ => false

/-- Numeric value of a Python int-instance (booleans coerce to 0 or 1). -/
def pyToInt : JVal → Int
  | .jint n => n
  | .jbool b => if b then 1 else 0
  | _ => 0

/-- Python `"x.y.z".split(".")`: split on every dot, keeping empty parts. -/
def splitOnDot : Str → List Str
  | [] => [[]]
  | c :: rest =>
    if c = '.' then [] :: splitOnDot rest
    else
      match splitOnDot rest with
      | [] => [[c]]
      | p :: ps => (c :: p) :: ps

theorem splitOnDot_ne_nil (l : Str) : splitOnDot l ≠ [] := by
  induction l with
  | nil => simp [splitOnDot]
  | cons c rest ih =>
    simp only [splitOnDot]
    by_cases h : c = '.'
    · simp [h]
    · simp only [h, if_false]
      cases hs : splitOnDot rest with
      | nil => exact absurd hs ih
      | cons p ps => simp

theorem splitOnDot_dotfree (x : Str) (hx : '.' ∉ x) : splitOnDot x = [x] := by
  induction x with
  | nil => simp [splitOnDot]
  | cons c rest ih =>
    have hc : c ≠ '.' := fun h => hx (by simp [h])
    have hrest : '.' ∉ rest := fun h => hx (List.mem_cons_of_mem _ h)
    simp [splitOnDot, hc, ih hrest]

theorem splitOnDot_append_dot (x l : Str) (hx : '.' ∉ x) :
    splitOnDot (x ++ '.' :: l) = x :: splitOnDot l := by
  induction x with
  | nil => simp [splitOnDot]
  | cons c rest ih =>
    have hc : c ≠ '.' := fun h => hx (by simp [h])
    have hrest : '.' ∉ rest := fun h => hx (List.mem_cons_of_mem _ h)
    simp only [List.cons_append, splitOnDot, hc, if_false]
    rw [List.append_eq, ih hrest]

/-- Splitting a three-part token on its dots recovers the three parts when
none of them contains a dot. -/
theorem splitOnDot_three (h b s : Str)
    (hh : '.' ∉ h) (hb : '.' ∉ b) (hs : '.' ∉ s) :
    splitOnDot (h ++ '.' :: (b ++ '.' :: s)) = [h, b, s] := by
  rw [splitOnDot_append_dot h _ hh, splitOnDot_append_dot b _ hb,
    splitOnDot_dotfree s hs]

/-- The stdlib primitives `security.py` builds on, as explicit parameters:
`jenc`/`jdec` are `json.dumps(..).encode` / `json.loads(..decode)`,
`b64e`/`b64d` are `_b64url_encode` / `_b64url_decode` (decode failure is
`none`), `mac secret msg` is `hmac.new(secret, msg, sha256).digest()`, and
`macHex` is the corresponding `.hexdigest()` used for anti-forgery
tokens. -/
structure Codec where
  jenc : Claims → Bytes
  jdec : Bytes → Option Claims
  b64e : Bytes → Str
  b64d : Str → Option Bytes
  mac : Str → Str → Bytes
  macHex : Str → Str → Str

/-- The fixed JWT header dict written by `create_access_token`. -/
def jwtHeader : Claims := [("alg", .jstr "HS256"), ("typ", .jstr "JWT")]

/-- Embedding of `create_access_token(payload, secret, ttl_minutes)` from
`app/services/security.py`, with the current time passed explicitly as
epoch seconds: the body is the payload with an `"exp"` claim set to
`now + ttl_minutes * 60`, and the token is `b64(header).b64(body).b64(sig)`
with the signature a keyed hash over the first two parts. -/
def create_access_token (cdc : Codec) (payload : Claims) (secret : Str)
    (ttl_minutes now : Int) : Str :=
  let exp : Int := now + ttl_minutes * 60
  let body := setClaim payload "exp" (.jint exp)
  let h := cdc.b64e (cdc.jenc jwtHeader)
  let b := cdc.b64e (cdc.jenc body)
  let signingInput := h ++ '.' :: b
  let s := cdc.b64e (cdc.mac secret signingInput)
  h ++ '.' :: (b ++ '.' :: s)

/-- Embedding of `decode_access_token(token, secret)` from
`app/services/security.py`: split on dots into exactly three parts,
recompute the signature over the first two, constant-time-compare it with
the decoded third part, then parse the body and require an `"exp"` claim
that is a Python int-instance and not in the past. Any failure yields
`none`. -/
def decode_access_token (cdc : Codec) (token : Str) (secret : Str)
    (now : Int) : Option Claims :=
  match splitOnDot token with
  | [h, b, s] =>
    let signingInput := h ++ '.' :: b
    let expected := cdc.mac secret signingInput
    match cdc.b64d s with
    | none => none
    | some provided =>
      if provided = expected then
        match cdc.b64d b with
        | none => none
        | some bodyBytes =>
          match cdc.jdec bodyBytes with
          | none => none
          | some payload =>
            match getClaim payload "exp" with
            | some v =>
              if pyIsInt v then
                if now > pyToInt v then none else some payload
              else none
            | none => none
      else none
  | _ => none

/-- Embedding of `sign_csrf_token(raw, secret)`: the raw value, a dot, and
the hex MAC over the raw value. -/
def sign_csrf_token (cdc : Codec) (raw secret : Str) : Str :=
  raw ++ '.' :: cdc.macHex secret raw

/-- Python `token.rsplit(".", 1)`: split at the last dot; `none` when the
token holds no dot (the `ValueError` case). -/
def rsplitDot1 : Str → Option (Str × Str)
  | [] => none
  | c :: rest =>
    match rsplitDot1 rest with
    | some (a, b) => some (c :: a, b)
    | none => if c = '.' then some ([], rest) else none

/-- Embedding of `verify_csrf_token(token, secret)`: split at the last dot
and constant-time-compare the trailing part with the recomputed hex MAC of
the leading part; a token without a dot is invalid. -/
def verify_csrf_token (cdc : Codec) (token secret : Str) : Bool :=
  match rsplitDot1 token with
  | none => false
  | some (raw, m) => m = cdc.macHex secret raw

theorem getClaim_setClaim (c : Claims) (k : String) (v : JVal) :
    getClaim (setClaim c k v) k = some v := by
  induction c with
  | nil => simp [setClaim, getClaim, List.find?]
  | cons kv rest ih =>
    by_cases h : kv.fst = k
    · simp [setClaim, getClaim, List.find?, h]
    · have hbeq : (kv.fst == k) = false := beq_eq_false_iff_ne.mpr h
      simp only [setClaim, h, if_false, getClaim, List.find?, hbeq]
      exact ih

/-- Python `s.upper()` over ASCII strings. -/
def pyUpper (s : String) : String := String.mk (s.data.map Char.toUpper)

/-- Python `s.lower()` over ASCII strings. -/
def pyLower (s : String) : String := String.mk (s.data.map Char.toLower)

/-- Python `s.strip()`: drop leading and trailing whitespace. -/
def pyStrip (s : String) : String :=
  String.mk (((s.data.dropWhile Char.isWhitespace).reverse.dropWhile
    Char.isWhitespace).reverse)

/-- Python `s.startswith(pre)`. -/
def pyStartsWith (s pre : String) : Bool :=
  pre.data.isPrefixOf s.data

/-- Python truthiness of an optional string: `None` and the empty string
are falsy. -/
def pyTruthy : Option String → Bool
  | none => false
  | some s => s ≠ ""

/-- Python `a or b` over optional strings, with falsy fallback. -/
def pyOr (a b : Option String) : Option String :=
  match a with
  | some s => if s ≠ "" then some s else b
  | none => b

/-- The methods `deps.py` treats as state-mutating. -/
def MUTATING_METHODS : List String := ["POST", "PUT", "PATCH", "DELETE"]

/-- An HTTP request as seen by the dependencies in `app/api/deps.py`:
method, cookie jar, and the two headers the authentication stack reads. -/
structure ApiRequest where
  method : String
  cookies : List (String × String)
  authorization : Option String
  csrfHeader : Option String
deriving DecidableEq, Repr

/-- Python `request.cookies.get(name)`. -/
def cookieGet (req : ApiRequest) (name : String) : Option String :=
  (req.cookies.find? (fun kv => kv.fst == name)).map Prod.snd

/-- Embedding of `_extract_access_token` from `app/api/deps.py`: prefer a
truthy access cookie, else a `Bearer` authorization header, else reject
with 401. -/
def extract_access_token (req : ApiRequest) : Except (Nat × String) String :=
  match cookieGet req "flc_access" with
  | some t =>
    if t ≠ "" then .ok t
    else
      match req.authorization with
      | some a =>
        if a ≠ "" ∧ pyStartsWith a "Bearer " then
          .ok (pyStrip (String.mk (a.data.drop 7)))
        else .error (401, "Missing auth token")
      | none => .error (401, "Missing auth token")
  | none =>
    match req.authorization with
    | some a =>
      if a ≠ "" ∧ pyStartsWith a "Bearer " then
        .ok (pyStrip (String.mk (a.data.drop 7)))
      else .error (401, "Missing auth token")
    | none => .error (401, "Missing auth token")

/-- Embedding of `_ensure_csrf` from `app/api/deps.py`: non-mutating
methods skip the check entirely; mutating methods require both
anti-forgery forms truthy, equal, and MAC-valid, each failure a distinct
403. -/
def ensure_csrf (cdc : Codec) (csrfSecret : Str) (method : String)
    (csrfCookie csrfHeader : Option String) : Except (Nat × String) Unit :=
  if ¬(MUTATING_METHODS.contains (pyUpper method)) then .ok ()
  else if ¬(pyTruthy csrfCookie ∧ pyTruthy csrfHeader) then
    .error (403, "CSRF token is required")
  else if csrfCookie ≠ csrfHeader then
    .error (403, "CSRF token mismatch")
  else
    match csrfCookie with
    | some c =>
      if verify_csrf_token cdc c.data csrfSecret then .ok ()
      else .error (403, "Invalid CSRF token")
    | none => .error (403, "CSRF token is required")

/-- Embedding of `get_current_user` from `app/api/deps.py`, parameterized
over the codec, the `uuid.UUID` parser (`none` models `ValueError`), the
set of user ids present in the database, and the current time: extract
and verify the bearer credential (failures are 401), then run the
anti-forgery gate (failures are 403), then resolve the user row. -/
def get_current_user (cdc : Codec) (puuid : String → Option Nat)
    (jwtSecret csrfSecret : Str) (req : ApiRequest) (users : List Nat)
    (now : Int) : Except (Nat × String) Nat :=
  match extract_access_token req with
  | .error e => .error e
  | .ok token =>
    match decode_access_token cdc token.data jwtSecret now with
    | none => .error (401, "Invalid auth token")
    | some payload =>
      if payload.isEmpty then .error (401, "Invalid auth token")
      else
        match getClaim payload "sub" with
        | some (.jstr sub) =>
          match puuid sub with
          | none => .error (401, "Invalid auth token")
          | some uid =>
            let csrfValue := pyOr (cookieGet req "csrf_cookie") (cookieGet req "flc_csrf")
            match ensure_csrf cdc csrfSecret req.method csrfValue req.csrfHeader with
            | .error e => .error e
            | .ok _ =>
              if uid ∈ users then .ok uid else .error (401, "Unknown user")
        | _ => .error (401, "Invalid auth token")

/-- A persisted refresh-token record. The `RefreshSession` ORM class is
referenced throughout `app/api/auth.py` and `app/api/profile.py`; its
fields are exactly those the source reads and writes: owner, salted token
hash, expiry, nullable revocation timestamp, remember-me flag, and the
optional back-reference to the record it was rotated from. -/
structure RefreshSession where
  rid : Nat
  user_id : Nat
  token_hash : String
  expires_at : Int
  revoked_at : Option Int
  remember_me : Bool
  rotated_from_id : Option Nat
deriving DecidableEq, Repr

/-- A project-membership record (`Member` in `app/models/entities.py`),
restricted to the fields the session protocol reads. -/
structure MemberRec where
  mid : Nat
  project_id : Nat
  user_id : Nat
deriving DecidableEq, Repr

/-- The database state the auth endpoints read and write. -/
structure AuthState where
  users : List Nat
  members : List MemberRec
  projects : List Nat
  sessions : List RefreshSession
deriving DecidableEq, Repr

/-- Update the first element satisfying `p` (SQLAlchemy mutates the single
object returned by `.first()` in place). -/
def updateFirst (p : α → Bool) (f : α → α) : List α → List α
  | [] => []
  | a :: rest => if p a then f a :: rest else a :: updateFirst p f rest

/-- Embedding of the `refresh_session` endpoint from `app/api/auth.py`,
parameterized over the token hash function and the settings value
`refresh_ttl_days`; the freshly generated raw token and record id are
passed explicitly (they are random in the source). Look up the presented
record by hash; reject 401 if absent, revoked, or expired; then resolve
user, membership, and project; on success revoke the presented record and
append a successor marked as rotated from it. -/
def refresh_session (hashTok : String → String) (refreshTtlDays : Int)
    (st : AuthState) (refreshCookie : Option String) (now : Int)
    (newRaw : String) (newRid : Nat) :
    Except (Nat × String) (AuthState × RefreshSession) :=
  match refreshCookie with
  | none => .error (401, "Missing refresh token")
  | some raw =>
    if raw = "" then .error (401, "Missing refresh token")
    else
      let th := hashTok raw
      match st.sessions.find? (fun s => s.token_hash == th) with
      | none => .error (401, "Invalid refresh token")
      | some s =>
        if s.revoked_at.isSome ∨ s.expires_at ≤ now then
          .error (401, "Invalid refresh token")
        else if s.user_id ∈ st.users then
          match st.members.find? (fun m => m.user_id == s.user_id) with
          | none => .error (403, "No project membership")
          | some m =>
            if m.project_id ∈ st.projects then
              let days : Int := if s.remember_me then refreshTtlDays else 1
              let newSess : RefreshSession :=
                { rid := newRid
                  user_id := s.user_id
                  token_hash := hashTok newRaw
                  expires_at := now + days * 86400
                  revoked_at := none
                  remember_me := s.remember_me
                  rotated_from_id := some s.rid }
              let sessions' :=
                updateFirst (fun r => r.token_hash == th)
                  (fun r => { r with revoked_at := some now }) st.sessions
                  ++ [newSess]
              .ok ({ st with sessions := sessions' }, newSess)
            else .error (404, "Project not found")
        else .error (401, "Unknown user")

/-- A user row as read by `change_password` in `app/api/profile.py`. -/
structure UserRec where
  uid : Nat
  password_hash : Option String
  auth_provider : String
deriving DecidableEq, Repr

/-- Embedding of the `change_password` endpoint from
`app/api/profile.py`, parameterized over `verify_password` and the fresh
hash of the new password (salted at random in the source), with the rate
limiter outcome passed as a boolean: require the rate limit, a stored
password hash, and re-proof of the current password; then replace the
stored hash and revoke every unrevoked refresh session of the subject. -/
def change_password (verifyPwd : String → String → Bool)
    (newHashVal : String) (rateAllowed : Bool) (user : UserRec)
    (currentPassword : String) (sessions : List RefreshSession) (now : Int) :
    Except (Nat × String) (UserRec × List RefreshSession) :=
  if ¬rateAllowed then .error (429, "Too many password change attempts")
  else
    match user.password_hash with
    | none => .error (400, "Password auth is not enabled for this account")
    | some ph =>
      if ph = "" then .error (400, "Password auth is not enabled for this account")
      else if ¬verifyPwd currentPassword ph then
        .error (401, "Current password is incorrect")
      else
        let user' : UserRec :=
          { user with
            password_hash := some newHashVal
            auth_provider := if user.auth_provider = "google" then "both" else "local" }
        let sessions' := sessions.map (fun r =>
          if r.user_id == user.uid && r.revoked_at.isNone then
            { r with revoked_at := some now }
          else r)
        .ok (user', sessions')

/-- A live event, restricted to the fields `_push_or_resync` reads when it
builds the synthetic resync event (`make_live_message` additionally stamps
a random id, a payload, and a timestamp, none of which the broker logic
inspects). -/
structure LiveMsg where
  mtype : String
  projectId : Nat
  calendarId : Option Nat
  entityId : Nat
deriving DecidableEq, Repr

/-- The synthetic resync-required event `_push_or_resync` builds from the
event that overflowed the queue. -/
def resyncOf (m : LiveMsg) : LiveMsg :=
  { mtype := "system.resync_required"
    projectId := m.projectId
    calendarId := m.calendarId
    entityId := m.entityId }

/-- `asyncio.Queue.full()` for a queue with capacity `cap` holding `buf`
(a non-positive capacity means unbounded, never full). -/
def queueFull (cap : Nat) (buf : List LiveMsg) : Bool :=
  0 < cap && cap ≤ buf.length

/-- The drain loop of `_push_or_resync` in `app/services/live.py`:
`while queue.full(): get_nowait()`, popping from the front and stopping
either when the queue is no longer full or when it is empty. -/
def drainWhileFull (cap : Nat) : List LiveMsg → List LiveMsg
  | [] => []
  | m :: rest =>
    if queueFull cap (m :: rest) then drainWhileFull cap rest else m :: rest

/-- Embedding of `_push_or_resync(queue, message)` from
`app/services/live.py`: try a non-blocking enqueue; on `QueueFull`, run
the drain loop, then enqueue the synthetic resync event, dropping it
silently if the queue is somehow still full. -/
def pushOrResync (cap : Nat) (buf : List LiveMsg) (m : LiveMsg) :
    List LiveMsg :=
  if ¬queueFull cap buf then buf ++ [m]
  else
    let drained := drainWhileFull cap buf
    if ¬queueFull cap drained then drained ++ [resyncOf m] else drained

/-- A subscriber queue: fixed capacity plus its buffered events. -/
structure SubQueue where
  cap : Nat
  buf : List LiveMsg
deriving DecidableEq, Repr

/-- The delivery context of the broker: no loop registered yet, a
registered loop that has been closed, or a live loop. -/
inductive LoopState where
  | noLoop
  | closedLoop
  | openLoop
deriving DecidableEq, Repr

/-- The broker state: the registered event loop (if any) and the
channel-to-subscriber-queues registry. -/
structure BrokerState where
  loop : LoopState
  subs : List (String × List SubQueue)
deriving DecidableEq, Repr

/-- Python `self._subscriptions.get(channel)`. -/
def subsGet (subs : List (String × List SubQueue)) (ch : String) :
    Option (List SubQueue) :=
  (subs.find? (fun e => e.fst == ch)).map Prod.snd

/-- One queue's update under `_push_or_resync`. -/
def pushQueue (m : LiveMsg) (q : SubQueue) : SubQueue :=
  { q with buf := pushOrResync q.cap q.buf m }

/-- Embedding of `LiveBroker._publish_in_loop`: a channel with no (or an
empty) queue set is skipped; otherwise every queue registered on the
channel is updated independently by `_push_or_resync`. -/
def publishInLoop (subs : List (String × List SubQueue)) (ch : String)
    (m : LiveMsg) : List (String × List SubQueue) :=
  match subsGet subs ch with
  | none => subs
  | some queues =>
    if queues.isEmpty then subs
    else
      updateFirst (fun e => e.fst == ch)
        (fun e => (e.fst, e.snd.map (pushQueue m))) subs

/-- Embedding of `LiveBroker.publish`: without a registered loop the call
is a no-op; a closed loop is cleared and the call is a no-op; otherwise
the event is handed to `_publish_in_loop`. No branch raises. -/
def publish (st : BrokerState) (ch : String) (m : LiveMsg) : BrokerState :=
  match st.loop with
  | .noLoop => st
  | .closedLoop => { st with loop := .noLoop }
  | .openLoop => { st with subs := publishInLoop st.subs ch m }

/-- The persisted `member_ids` column of a calendar lens, as the two
resolvers see it: NULL or the empty string (both falsy), a well-formed
JSON list of member-record UUIDs, or a malformed value on which
`json.loads` / `uuid.UUID` raises. -/
inductive StoredIds where
  | nullOrEmpty
  | ids (l : List Nat)
  | malformed
deriving DecidableEq, Repr

/-- A calendar lens row (`CalendarLens` in `app/models/entities.py`),
restricted to the fields the access logic reads. -/
structure Lens where
  lensId : Nat
  project_id : Nat
  member_ids : StoredIds
  created_by : Nat
  is_default : Bool
deriving DecidableEq, Repr

/-- Embedding of `_member_can_access_lens` from `app/api/live.py`: a falsy
or unparseable member list falls back to the owner check; otherwise grant
if the member-record id is listed, else fall back to the owner check. -/
def member_can_access_lens_live (lens : Lens) (member : MemberRec) : Bool :=
  match lens.member_ids with
  | .nullOrEmpty => lens.created_by == member.user_id
  | .malformed => lens.created_by == member.user_id
  | .ids l => if member.mid ∈ l then true else lens.created_by == member.user_id

/-- Embedding of `_serialize_ids` from `app/api/lenses.py`: a falsy value
parses to the empty list, a malformed one raises (`none`). -/
def serialize_ids : StoredIds → Option (List Nat)
  | .nullOrEmpty => some []
  | .ids l => some l
  | .malformed => none

/-- Embedding of `_member_can_access_lens` from `app/api/lenses.py`:
membership in the parsed id set, else the owner check; a malformed member
list propagates the parse exception (`none`). -/
def member_can_access_lens_rest (lens : Lens) (member : MemberRec) :
    Option Bool :=
  match serialize_ids lens.member_ids with
  | none => none
  | some l =>
    some (if member.mid ∈ l then true else lens.created_by == member.user_id)

/-- The explicit member set of a lens, as the specification describes it
(empty for a falsy or malformed column). -/
def explicitIds : StoredIds → List Nat
  | .ids l => l
  | _ => []

/-- Outcome of `_assert_lens_access`: the lens, an HTTP rejection, or an
uncaught exception from a malformed member list. -/
inductive LensAccessResult where
  | ok (lens : Lens)
  | httpError (code : Nat) (detail : String)
  | raised
deriving DecidableEq, Repr

/-- Embedding of `_assert_lens_access` from `app/api/lenses.py`, the
shared gate of the get/patch/delete lens endpoints: a missing lens, a
lens of another project, and a failed access predicate all raise the same
404. -/
def assert_lens_access (lens? : Option Lens) (pid : Nat)
    (member : MemberRec) : LensAccessResult :=
  match lens? with
  | none => .httpError 404 "Lens not found"
  | some lens =>
    if lens.project_id ≠ pid then .httpError 404 "Lens not found"
    else
      match member_can_access_lens_rest lens member with
      | none => .raised
      | some ok => if ok then .ok lens else .httpError 404 "Lens not found"

/-- Embedding of `_parse_bool` from `app/api/live.py`. -/
def parse_bool (raw : Option String) (default : Bool) : Bool :=
  match raw with
  | none => default
  | some r =>
    let v := pyLower (pyStrip r)
    if ["1", "true", "yes", "on"].contains v then true
    else if ["0", "false", "no", "off"].contains v then false
    else default

/-- Channel name builders from `app/services/live.py`. -/
def projectEventsChannel (projectId : Nat) : String :=
  "project-events:" ++ toString projectId

def projectMetaChannel (projectId : Nat) : String :=
  "project-meta:" ++ toString projectId

def calendarChannel (calendarId : Nat) : String :=
  "calendar:" ++ toString calendarId

/-- Helper for `dedupFirst`: skip elements already seen. -/
def dedupFirstAux (seen : List String) : List String → List String
  | [] => []
  | a :: rest =>
    if seen.contains a then dedupFirstAux seen rest
    else a :: dedupFirstAux (a :: seen) rest

/-- Python `dict.fromkeys(channels)` deduplication: keep the first
occurrence of each element. -/
def dedupFirst (l : List String) : List String := dedupFirstAux [] l

/-- A websocket handshake as `live_ws` sees it: the cookie jar entries and
query parameters it (or the claim under study) could read. -/
structure WsRequest where
  accessCookie : Option String
  csrfCookie : Option String
  csrfHeader : Option String
  calendarIdParam : Option String
  projectFeedParam : Option String
deriving DecidableEq, Repr

/-- The reasons `_resolve_user_and_project` raises `PermissionError`. -/
inductive WsAuthErr where
  | missing_token
  | invalid_token
  | invalid_subject
  | unknown_user
  | no_membership
deriving DecidableEq, Repr

/-- The database state the live endpoint reads. -/
structure LiveDb where
  users : List Nat
  members : List MemberRec
  lenses : List Lens
deriving DecidableEq, Repr

/-- Embedding of `_resolve_user_and_project` from `app/api/live.py`: read
the access cookie (no anti-forgery material is consulted), verify it via
`decode_access_token`, parse the subject, and resolve user and
membership. -/
def resolve_user_and_project (cdc : Codec) (puuid : String → Option Nat)
    (jwtSecret : Str) (now : Int) (db : LiveDb) (ws : WsRequest) :
    Except WsAuthErr (Nat × MemberRec) :=
  match ws.accessCookie with
  | none => .error .missing_token
  | some tok =>
    if tok = "" then .error .missing_token
    else
      match decode_access_token cdc tok.data jwtSecret now with
      | none => .error .invalid_token
      | some payload =>
        if payload.isEmpty then .error .invalid_token
        else
          match getClaim payload "sub" with
          | some (.jstr sub) =>
            match puuid sub with
            | none => .error .invalid_subject
            | some uid =>
              if uid ∈ db.users then
                match db.members.find? (fun m => m.user_id == uid) with
                | some m => .ok (uid, m)
                | none => .error .no_membership
              else .error .unknown_user
          | _ => .error .invalid_subject

/-- Outcome of the connection setup phase of `live_ws`: accepted with the
resolved channel set, or closed with a websocket close code. -/
inductive ConnectOutcome where
  | accepted (channels : List String)
  | closed (code : Nat)
deriving DecidableEq, Repr

/-- Embedding of the connection setup of `live_ws` from `app/api/live.py`
(everything up to `websocket.accept()` plus the channel-set assembly): an
unparseable calendar id closes 4403; authentication failures close 4401
except missing membership, which closes 4403; a requested lens that is
missing, of another project, or inaccessible closes 4403; otherwise the
connection is accepted with the deduplicated channel list. -/
def liveConnect (cdc : Codec) (puuid : String → Option Nat)
    (jwtSecret : Str) (now : Int) (db : LiveDb) (ws : WsRequest) :
    ConnectOutcome :=
  let scope : Except Unit (Option Nat × Bool) :=
    match ws.calendarIdParam with
    | none => .ok (none, parse_bool ws.projectFeedParam true)
    | some c =>
      if c = "" then .ok (none, parse_bool ws.projectFeedParam true)
      else
        match puuid c with
        | none => .error ()
        | some cid => .ok (some cid, parse_bool ws.projectFeedParam true)
  match scope with
  | .error _ => .closed 4403
  | .ok (calendarId?, projectFeed) =>
    match resolve_user_and_project cdc puuid jwtSecret now db ws with
    | .error .no_membership => .closed 4403
    | .error _ => .closed 4401
    | .ok (_, member) =>
      match calendarId? with
      | some cid =>
        match db.lenses.find? (fun l => l.lensId == cid) with
        | none => .closed 4403
        | some lens =>
          if lens.project_id ≠ member.project_id then .closed 4403
          else if ¬member_can_access_lens_live lens member then .closed 4403
          else
            let channels := [calendarChannel cid]
              ++ (if projectFeed then [projectMetaChannel member.project_id] else [])
            .accepted (dedupFirst channels)
      | none =>
        let visible := (db.lenses.filter
            (fun l => l.project_id == member.project_id)).filter
            (fun l => member_can_access_lens_live l member)
        let channels := projectEventsChannel member.project_id
            :: visible.map (fun l => calendarChannel l.lensId)
            ++ (if projectFeed then [projectMetaChannel member.project_id] else [])
        .accepted (dedupFirst channels)

theorem drainWhileFull_not_full (cap : Nat) (buf : List LiveMsg)
    (h : queueFull cap buf = false) : drainWhileFull cap buf = buf := by
  cases buf with
  | nil => rfl
  | cons m rest => simp [drainWhileFull, h]

theorem drainWhileFull_eq_drop (cap : Nat) (buf : List LiveMsg)
    (hcap : 0 < cap) (hfull : cap ≤ buf.length) :
    drainWhileFull cap buf = buf.drop (buf.length + 1 - cap) := by
  induction buf with
  | nil => simp at hfull; omega
  | cons m rest ih =>
    have hq : queueFull cap (m :: rest) = true := by
      simp [queueFull]
      constructor
      · exact hcap
      · simpa using hfull
    simp only [drainWhileFull, hq, if_true]
    by_cases h2 : cap ≤ rest.length
    · rw [ih h2]
      have hstep : (m :: rest).length + 1 - cap = (rest.length + 1 - cap) + 1 := by
        simp only [List.length_cons]
        omega
      rw [hstep, List.drop_succ_cons]
    · have hlen : rest.length + 1 = cap := by
        simp only [List.length_cons] at hfull
        omega
      have hq2 : queueFull cap rest = false := by
        simp [queueFull]
        intro _
        omega
      rw [drainWhileFull_not_full cap rest hq2]
      have hone : (m :: rest).length + 1 - cap = 1 := by
        simp only [List.length_cons]
        omega
      rw [hone, List.drop_one, List.tail_cons]

theorem find?_updateFirst_self (p : α → Bool) (f : α → α) (l : List α)
    (hpf : ∀ a, p a = true → p (f a) = true) (x : α)
    (hx : l.find? p = some x) :
    (updateFirst p f l).find? p = some (f x) := by
  induction l with
  | nil => simp [List.find?] at hx
  | cons a rest ih =>
    by_cases ha : p a = true
    · rw [List.find?_cons_of_pos _ ha] at hx
      have hax : a = x := by injection hx
      subst hax
      simp [updateFirst, ha, List.find?_cons_of_pos _ (hpf a ha)]
    · have ha' : ¬(p a = true) := ha
      rw [List.find?_cons_of_neg _ ha'] at hx
      have hpa : p a = false := by
        cases hv : p a
        · rfl
        · exact absurd hv ha'
      simp only [updateFirst, hpa, Bool.false_eq_true, if_false]
      rw [List.find?_cons_of_neg _ ha']
      exact ih hx

theorem find?_append_left (p : α → Bool) (l1 l2 : List α) (x : α)
    (hx : l1.find? p = some x) : (l1 ++ l2).find? p = some x := by
  induction l1 with
  | nil => simp [List.find?] at hx
  | cons a rest ih =>
    by_cases ha : p a = true
    · rw [List.find?_cons_of_pos _ ha] at hx
      simpa [List.find?_cons_of_pos _ ha] using hx
    · rw [List.find?_cons_of_neg _ ha] at hx
      simpa [List.find?_cons_of_neg _ ha] using ih hx

/-- C10: the REST lens operations (get, patch, delete) all gate through
`_assert_lens_access`, and that gate produces the identical
`404 / "Lens not found"` rejection in all three failure cases — lens
absent, lens of a different project, and access predicate false — so an
inaccessible view is indistinguishable from a nonexistent one. -/
theorem lens_not_found_indistinguishable (lens? : Option Lens) (pid : Nat)
    (member : MemberRec) :
    (lens? = none →
      assert_lens_access lens? pid member = .httpError 404 "Lens not found")
    ∧ (∀ lens, lens? = some lens → lens.project_id ≠ pid →
      assert_lens_access lens? pid member = .httpError 404 "Lens not found")
    ∧ (∀ lens, lens? = some lens →
      member_can_access_lens_rest lens member = some false →
      assert_lens_access lens? pid member = .httpError 404 "Lens not found") := by
  refine ⟨?_, ?_, ?_⟩
  · intro h
    subst h
    rfl
  · intro lens h hpid
    subst h
    simp [assert_lens_access, hpid]
  · intro lens h hacc
    subst h
    by_cases hpid : lens.project_id ≠ pid
    · simp [assert_lens_access, hpid]
    · simp [assert_lens_access, hpid, hacc]

/-- Closed instance discharging the hypotheses of
`lens_not_found_indistinguishable`: the rejection is literally the same
value for a missing lens, a foreign-project lens, and an inaccessible
lens. -/
theorem lens_not_found_indistinguishable_witness :
    assert_lens_access none 1 ⟨1, 1, 2⟩ = .httpError 404 "Lens not found"
    ∧ assert_lens_access (some ⟨5, 9, .nullOrEmpty, 3, false⟩) 1 ⟨1, 1, 2⟩
      = .httpError 404 "Lens not found"
    ∧ assert_lens_access (some ⟨5, 1, .ids [], 3, false⟩) 1 ⟨1, 1, 2⟩
      = .httpError 404 "Lens not found" :=
  ⟨(lens_not_found_indistinguishable none 1 ⟨1, 1, 2⟩).1 rfl,
   (lens_not_found_indistinguishable (some ⟨5, 9, .nullOrEmpty, 3, false⟩) 1
      ⟨1, 1, 2⟩).2.1 _ rfl (by decide),
   (lens_not_found_indistinguishable (some ⟨5, 1, .ids [], 3, false⟩) 1
      ⟨1, 1, 2⟩).2.2 _ rfl (by decide)⟩

/-- C8: on every well-formed member list (`NULL`/empty or a parseable id
list — the only shapes the REST layer ever persists), the streaming-side
and REST-side `_member_can_access_lens` implementations agree, and both
compute exactly the specified predicate: the member-record id is in the
lens's explicit member set, or the member's user id equals the lens
creator. -/
theorem lens_access_resolvers_agree (lens : Lens) (member : MemberRec)
    (hwf : lens.member_ids ≠ .malformed) :
    member_can_access_lens_rest lens member
      = some (member_can_access_lens_live lens member)
    ∧ (member_can_access_lens_live lens member = true
      ↔ member.mid ∈ explicitIds lens.member_ids
        ∨ lens.created_by = member.user_id) := by
  cases hmi : lens.member_ids with
  | malformed => exact absurd hmi hwf
  | nullOrEmpty =>
    simp [member_can_access_lens_rest, serialize_ids,
      member_can_access_lens_live, explicitIds, hmi, beq_iff_eq]
  | ids l =>
    by_cases hmem : member.mid ∈ l
    · simp [member_can_access_lens_rest, serialize_ids,
        member_can_access_lens_live, explicitIds, hmi, hmem]
    · simp [member_can_access_lens_rest, serialize_ids,
        member_can_access_lens_live, explicitIds, hmi, hmem, beq_iff_eq]

/-- Closed instance discharging the hypotheses of
`lens_access_resolvers_agree` at a lens with an explicit member list. -/
theorem lens_access_resolvers_agree_witness :
    member_can_access_lens_rest ⟨5, 1, .ids [4], 3, false⟩ ⟨4, 1, 2⟩
      = some (member_can_access_lens_live ⟨5, 1, .ids [4], 3, false⟩ ⟨4, 1, 2⟩)
    ∧ (member_can_access_lens_live ⟨5, 1, .ids [4], 3, false⟩ ⟨4, 1, 2⟩ = true
      ↔ (4 : Nat) ∈ explicitIds (.ids [4]) ∨ (3 : Nat) = 2) :=
  lens_access_resolvers_agree ⟨5, 1, .ids [4], 3, false⟩ ⟨4, 1, 2⟩ (by decide)

/-- C9: `decode_access_token` rejects every token whose parsed payload
lacks an `"exp"` claim or carries an `"exp"` that is not a Python
int-instance, even when the token's signature over that payload is valid
under the correct secret — so an unexpiring access token is never
accepted. -/
theorem decode_rejects_missing_or_nonint_exp (cdc : Codec)
    (token secret : Str) (now : Int) (h b s : Str)
    (hsplit : splitOnDot token = [h, b, s])
    (bodyBytes : Bytes) (payload : Claims)
    (hb : cdc.b64d b = some bodyBytes)
    (hj : cdc.jdec bodyBytes = some payload)
    (hs : cdc.b64d s = some (cdc.mac secret (h ++ '.' :: b)))
    (hexp : getClaim payload "exp" = none
      ∨ ∃ v, getClaim payload "exp" = some v ∧ pyIsInt v = false) :
    decode_access_token cdc token secret now = none := by
  rcases hexp with hnone | ⟨v, hv, hvi⟩
  · simp [decode_access_token, hsplit, hs, hb, hj, hnone]
  · simp [decode_access_token, hsplit, hs, hb, hj, hv, hvi]

/-- Closed instance discharging the hypotheses of
`decode_rejects_missing_or_nonint_exp`: a correctly signed token whose
`"exp"` is the string `"never"` is rejected. -/
theorem decode_rejects_missing_or_nonint_exp_witness :
    decode_access_token
      { jenc := fun _ => [], jdec := fun bs => if bs = [1] then some [("sub", .jstr "7"), ("exp", .jstr "never")] else none
        b64e := fun _ => [], b64d := fun cs => if cs = ['B'] then some [1] else (if cs = ['S'] then some [9] else none)
        mac := fun _ _ => [9], macHex := fun _ _ => [] }
      ['H', '.', 'B', '.', 'S'] ['k'] 1000 = none :=
  decode_rejects_missing_or_nonint_exp _ _ _ 1000 ['H'] ['B'] ['S']
    (by decide) [1] [("sub", .jstr "7"), ("exp", .jstr "never")]
    (by decide) (by decide) (by decide)
    (Or.inr ⟨.jstr "never", by decide, by decide⟩)

/-- C7: `publish` is total (it is a Lean function, raising nothing) and a
no-op whenever delivery is impossible: with no registered loop the state
is untouched; with a closed loop only the stale loop reference is
cleared; and with no subscriber queues registered on the channel the
registry is untouched. -/
theorem publish_noop_cases (st : BrokerState) (ch : String) (m : LiveMsg) :
    (st.loop = .noLoop → publish st ch m = st)
    ∧ (st.loop = .closedLoop →
      publish st ch m = { st with loop := .noLoop })
    ∧ (subsGet st.subs ch = none ∨ subsGet st.subs ch = some [] →
      (publish st ch m).subs = st.subs) := by
  refine ⟨?_, ?_, ?_⟩
  · intro h
    simp [publish, h]
  · intro h
    simp [publish, h]
  · intro hsub
    cases hl : st.loop with
    | noLoop => simp [publish, hl]
    | closedLoop => simp [publish, hl]
    | openLoop =>
      rcases hsub with hnone | hempty
      · simp [publish, hl, publishInLoop, hnone]
      · simp [publish, hl, publishInLoop, hempty]

/-- Closed instance discharging the hypotheses of `publish_noop_cases`:
publishing with no loop, into a closed loop, and onto a channel without
subscribers each leaves the registry unchanged. -/
theorem publish_noop_cases_witness :
    publish ⟨.noLoop, []⟩ "project-events:1" ⟨"event.created", 1, none, 2⟩
      = ⟨.noLoop, []⟩
    ∧ publish ⟨.closedLoop, []⟩ "project-events:1" ⟨"event.created", 1, none, 2⟩
      = ⟨.noLoop, []⟩
    ∧ (publish ⟨.openLoop, []⟩ "project-events:1" ⟨"event.created", 1, none, 2⟩).subs
      = [] :=
  ⟨(publish_noop_cases ⟨.noLoop, []⟩ _ _).1 rfl,
   (publish_noop_cases ⟨.closedLoop, []⟩ _ _).2.1 rfl,
   (publish_noop_cases ⟨.openLoop, []⟩ "project-events:1" _).2.2 (Or.inl rfl)⟩

/-- C6 counterexample: on a full capacity-2 queue holding two buffered
events, publishing a third does NOT discard all buffered events — the
drain loop `while queue.full(): get_nowait()` stops as soon as one slot
frees, so the stale second event survives in front of the synthetic
resync event. -/
theorem push_or_resync_single_drop_counterexample :
    pushOrResync 2
      [⟨"event.created", 1, none, 11⟩, ⟨"event.created", 1, none, 12⟩]
      ⟨"event.created", 1, none, 13⟩
      = [⟨"event.created", 1, none, 12⟩, resyncOf ⟨"event.created", 1, none, 13⟩]
    ∧ pushOrResync 2
      [⟨"event.created", 1, none, 11⟩, ⟨"event.created", 1, none, 12⟩]
      ⟨"event.created", 1, none, 13⟩
      ≠ [resyncOf ⟨"event.created", 1, none, 13⟩] := by
  constructor
  · rfl
  · decide

/-- C6 (amended): for positive capacity, a publish onto a queue with
spare capacity appends in FIFO order; a publish onto a full queue
discards buffered events from the front only until the queue is no longer
full (exactly one event when the buffer holds exactly `cap`) and then
enqueues a single synthetic resync event after the surviving ones, never
blocking (the silent-drop branch for a still-full queue is unreachable at
positive capacity); and a publish on a channel updates every subscriber
queue of that channel independently by this same per-queue rule. -/
theorem push_or_resync_characterization (cap : Nat) (buf : List LiveMsg)
    (m : LiveMsg) (hcap : 0 < cap) :
    (buf.length < cap → pushOrResync cap buf m = buf ++ [m])
    ∧ (cap ≤ buf.length →
      pushOrResync cap buf m
        = buf.drop (buf.length + 1 - cap) ++ [resyncOf m])
    ∧ (∀ subs ch qs, subsGet subs ch = some qs → qs ≠ [] →
      subsGet (publishInLoop subs ch m) ch = some (qs.map (pushQueue m))) := by
  refine ⟨?_, ?_, ?_⟩
  · intro hlt
    have hq : queueFull cap buf = false := by
      simp only [queueFull, Bool.and_eq_false_iff]
      right
      simpa using Nat.not_le_of_lt hlt
    simp [pushOrResync, hq]
  · intro hge
    have hq : queueFull cap buf = true := by
      simp only [queueFull, Bool.and_eq_true]
      exact ⟨by simpa using hcap, by simpa using hge⟩
    have hdrop := drainWhileFull_eq_drop cap buf hcap hge
    have hq2 : queueFull cap (drainWhileFull cap buf) = false := by
      rw [hdrop]
      simp only [queueFull, Bool.and_eq_false_iff, List.length_drop]
      right
      simp only [decide_eq_false_iff_not, Nat.not_le]
      omega
    rw [hdrop] at hq2
    simp [pushOrResync, hq, hq2, hdrop]
  · intro subs ch qs hq hne
    have hqe : qs.isEmpty = false := by
      cases qs
      · exact absurd rfl hne
      · rfl
    rcases hfind : subs.find? (fun e => e.fst == ch) with _ | e
    · simp [subsGet, hfind] at hq
    · have heq : e.snd = qs := by simpa [subsGet, hfind] using hq
      have hupd := find?_updateFirst_self (fun e => e.fst == ch)
        (fun e => (e.fst, e.snd.map (pushQueue m))) subs
        (fun a ha => by simpa using ha) e hfind
      simp only [publishInLoop, subsGet, hfind, Option.map_some', heq, hqe,
        Bool.false_eq_true, if_false]
      rw [hupd]
      simp [heq]

/-- Closed instance discharging the hypotheses of
`push_or_resync_characterization` at capacity 2. -/
theorem push_or_resync_characterization_witness :
    pushOrResync 2 [⟨"event.created", 1, none, 11⟩] ⟨"event.created", 1, none, 12⟩
      = [⟨"event.created", 1, none, 11⟩, ⟨"event.created", 1, none, 12⟩]
    ∧ pushOrResync 2
      [⟨"event.created", 1, none, 11⟩, ⟨"event.created", 1, none, 12⟩]
      ⟨"event.created", 1, none, 13⟩
      = [⟨"event.created", 1, none, 12⟩, resyncOf ⟨"event.created", 1, none, 13⟩]
    ∧ subsGet (publishInLoop [("calendar:7", [⟨2, []⟩])] "calendar:7"
        ⟨"event.created", 1, none, 11⟩) "calendar:7"
      = some [⟨2, [⟨"event.created", 1, none, 11⟩]⟩] :=
  ⟨(push_or_resync_characterization 2 [⟨"event.created", 1, none, 11⟩]
      ⟨"event.created", 1, none, 12⟩ (by decide)).1 (by decide),
   (push_or_resync_characterization 2
      [⟨"event.created", 1, none, 11⟩, ⟨"event.created", 1, none, 12⟩]
      ⟨"event.created", 1, none, 13⟩ (by decide)).2.1 (by decide),
   (push_or_resync_characterization 2 [] ⟨"event.created", 1, none, 11⟩
      (by decide)).2.2 [("calendar:7", [⟨2, []⟩])] "calendar:7" [⟨2, []⟩]
      rfl (by decide)⟩

/-- The body dict `create_access_token` serializes: the payload with the
`"exp"` claim set to issuance time plus the ttl in seconds. -/
def tokenBody (payload : Claims) (ttl now : Int) : Claims :=
  setClaim payload "exp" (.jint (now + ttl * 60))

/-- The signing input `f"{h}.{b}"` for a given body. -/
def signingInputOf (cdc : Codec) (body : Claims) : Str :=
  cdc.b64e (cdc.jenc jwtHeader) ++ '.' :: cdc.b64e (cdc.jenc body)

/-- C5: (1) decoding a token produced by `create_access_token` under the
same secret, at any time not past its expiry, returns exactly the issued
claims — the original payload with the `"exp"` claim set; (2) any token
whose signature part decodes to bytes differing anywhere from the correct
keyed hash over header and body is rejected. The hypotheses state the
stdlib facts used at the needed points: base64url encodings are dot-free
and decoding inverts encoding, and JSON parsing inverts serialization. -/
theorem token_roundtrip_and_tamper_reject :
    (∀ (cdc : Codec) (payload : Claims) (secret : Str) (ttl now now2 : Int),
      '.' ∉ cdc.b64e (cdc.jenc jwtHeader) →
      '.' ∉ cdc.b64e (cdc.jenc (tokenBody payload ttl now)) →
      '.' ∉ cdc.b64e (cdc.mac secret (signingInputOf cdc (tokenBody payload ttl now))) →
      cdc.b64d (cdc.b64e (cdc.mac secret (signingInputOf cdc (tokenBody payload ttl now))))
        = some (cdc.mac secret (signingInputOf cdc (tokenBody payload ttl now))) →
      cdc.b64d (cdc.b64e (cdc.jenc (tokenBody payload ttl now)))
        = some (cdc.jenc (tokenBody payload ttl now)) →
      cdc.jdec (cdc.jenc (tokenBody payload ttl now))
        = some (tokenBody payload ttl now) →
      now2 ≤ now + ttl * 60 →
      decode_access_token cdc (create_access_token cdc payload secret ttl now)
        secret now2 = some (tokenBody payload ttl now))
    ∧ (∀ (cdc : Codec) (secret h b s : Str) (now : Int) (bs : Bytes),
      '.' ∉ h → '.' ∉ b → '.' ∉ s →
      cdc.b64d s = some bs →
      bs ≠ cdc.mac secret (h ++ '.' :: b) →
      decode_access_token cdc (h ++ '.' :: (b ++ '.' :: s)) secret now = none) := by
  constructor
  · intro cdc payload secret ttl now now2 hh hbdot hsdot hs64 hb64 hj hnow
    have hsplit := splitOnDot_three (cdc.b64e (cdc.jenc jwtHeader))
      (cdc.b64e (cdc.jenc (tokenBody payload ttl now)))
      (cdc.b64e (cdc.mac secret (signingInputOf cdc (tokenBody payload ttl now))))
      hh hbdot hsdot
    simp only [tokenBody, signingInputOf] at hsplit hs64 hb64 hj
    simp only [create_access_token, decode_access_token, hsplit, hs64, hb64,
      hj, getClaim_setClaim, pyIsInt, pyToInt, eq_self_iff_true, if_true]
    rw [if_neg (by omega)]
    simp [tokenBody]
  · intro cdc secret h b s now bs hh hb hs hdec hne
    have hsplit := splitOnDot_three h b s hh hb hs
    simp only [decode_access_token, hsplit, hdec]
    rw [if_neg hne]

/-- A concrete codec instantiation used by witnesses: bytes map to
characters offset by 65, the MAC is a constant digest, and the JSON layer
recognizes the one body dict the witnesses serialize. -/
def cdcW : Codec :=
  { jenc := fun c => [c.length]
    jdec := fun bs =>
      if bs = [2] then some [("sub", .jstr "7"), ("exp", .jint 1000)] else none
    b64e := fun bs => bs.map (fun n => Char.ofNat (n + 65))
    b64d := fun cs => some (cs.map (fun c => c.toNat - 65))
    mac := fun _ _ => [7]
    macHex := fun _ _ => ['m'] }

/-- Closed instance discharging the hypotheses of
`token_roundtrip_and_tamper_reject`: a concrete issued token decodes back
to its claims, and the same token with a wrong signature byte is
rejected. -/
theorem token_roundtrip_and_tamper_reject_witness :
    decode_access_token cdcW
      (create_access_token cdcW [("sub", .jstr "7")] ['k'] 15 100) ['k'] 200
      = some [("sub", .jstr "7"), ("exp", .jint 1000)]
    ∧ decode_access_token cdcW (['C'] ++ '.' :: (['C'] ++ '.' :: ['X'])) ['k'] 200
      = none :=
  ⟨token_roundtrip_and_tamper_reject.1 cdcW [("sub", .jstr "7")] ['k'] 15 100 200
      (by decide) (by decide) (by decide) (by decide) (by decide) (by decide)
      (by decide),
   token_roundtrip_and_tamper_reject.2 cdcW ['k'] ['C'] ['C'] ['X'] 200 [23]
      (by decide) (by decide) (by decide) (by decide) (by decide)⟩

theorem ensure_csrf_forbidden (cdc : Codec) (csrfSecret : Str)
    (method : String) (a b : Option String)
    (hm : MUTATING_METHODS.contains (pyUpper method) = true)
    (hbad : pyTruthy a = false ∨ pyTruthy b = false ∨ a ≠ b
      ∨ (∀ c, a = some c → verify_csrf_token cdc c.data csrfSecret = false)) :
    ∃ d, ensure_csrf cdc csrfSecret method a b = .error (403, d) := by
  have hmem : pyUpper method ∈ MUTATING_METHODS := by simpa using hm
  by_cases h1 : pyTruthy a = true
  case neg =>
    have h1f : pyTruthy a = false := by
      cases hv : pyTruthy a
      · rfl
      · exact absurd hv h1
    exact ⟨"CSRF token is required", by simp [ensure_csrf, hmem, h1f]⟩
  case pos =>
    by_cases h2 : pyTruthy b = true
    case neg =>
      have h2f : pyTruthy b = false := by
        cases hv : pyTruthy b
        · rfl
        · exact absurd hv h2
      exact ⟨"CSRF token is required", by simp [ensure_csrf, hmem, h1, h2f]⟩
    case pos =>
      by_cases h3 : a = b
      case neg =>
        exact ⟨"CSRF token mismatch", by simp [ensure_csrf, hmem, h1, h2, h3]⟩
      case pos =>
        rcases hbad with hb | hb | hb | hb
        · rw [h1] at hb
          cases hb
        · rw [h2] at hb
          cases hb
        · exact absurd h3 hb
        · cases ha : a with
          | none =>
            rw [ha] at h1
            simp [pyTruthy] at h1
          | some c =>
            refine ⟨"Invalid CSRF token", ?_⟩
            have hv := hb c ha
            subst h3
            rw [ha] at h1 ⊢
            simp [ensure_csrf, hmem, h1, hv]

/-- C4: a mutating request carrying a valid access credential but whose
anti-forgery forms are missing, unequal, or MAC-invalid is rejected by
`get_current_user` with a 403 Forbidden (never the 401 of credential
failures); and on every non-mutating method the anti-forgery gate
`_ensure_csrf` is skipped entirely, accepting whatever the anti-forgery
inputs are. -/
theorem csrf_gate_forbidden_and_skip (cdc : Codec)
    (puuid : String → Option Nat) (jwtSecret csrfSecret : Str)
    (req : ApiRequest) (users : List Nat) (now : Int) :
    (∀ tok payload sub uid,
      MUTATING_METHODS.contains (pyUpper req.method) = true →
      extract_access_token req = .ok tok →
      decode_access_token cdc tok.data jwtSecret now = some payload →
      payload ≠ [] →
      getClaim payload "sub" = some (.jstr sub) →
      puuid sub = some uid →
      (pyTruthy (pyOr (cookieGet req "csrf_cookie") (cookieGet req "flc_csrf")) = false
        ∨ pyTruthy req.csrfHeader = false
        ∨ pyOr (cookieGet req "csrf_cookie") (cookieGet req "flc_csrf") ≠ req.csrfHeader
        ∨ (∀ c, pyOr (cookieGet req "csrf_cookie") (cookieGet req "flc_csrf") = some c →
            verify_csrf_token cdc c.data csrfSecret = false)) →
      ∃ d, get_current_user cdc puuid jwtSecret csrfSecret req users now
        = .error (403, d))
    ∧ (∀ (method : String) (a b : Option String),
      MUTATING_METHODS.contains (pyUpper method) = false →
      ensure_csrf cdc csrfSecret method a b = .ok ()) := by
  constructor
  · intro tok payload sub uid hm htok hdec hne hsub huid hbad
    obtain ⟨d, hd⟩ := ensure_csrf_forbidden cdc csrfSecret req.method
      (pyOr (cookieGet req "csrf_cookie") (cookieGet req "flc_csrf"))
      req.csrfHeader hm hbad
    refine ⟨d, ?_⟩
    simp [get_current_user, htok, hdec, hne, hsub, huid, hd]
  · intro method a b hm
    have hmem : pyUpper method ∉ MUTATING_METHODS := by simpa using hm
    simp [ensure_csrf, hmem]

/-- The concrete `uuid.UUID` parser instantiation used by witnesses. -/
def puuidW (s : String) : Option Nat := if s = "7" then some 7 else none

/-- Closed instance discharging the hypotheses of
`csrf_gate_forbidden_and_skip`: a POST with a valid token cookie but no
anti-forgery material is rejected 403, and a GET passes the gate with no
anti-forgery material at all. -/
theorem csrf_gate_forbidden_and_skip_witness :
    (∃ d, get_current_user cdcW puuidW ['k'] ['k']
      ⟨"POST", [("flc_access", "C.C.H")], none, none⟩ [7] 150
      = .error (403, d))
    ∧ ensure_csrf cdcW ['k'] "GET" none none = .ok () :=
  ⟨(csrf_gate_forbidden_and_skip cdcW puuidW ['k'] ['k']
      ⟨"POST", [("flc_access", "C.C.H")], none, none⟩ [7] 150).1
      "C.C.H" [("sub", .jstr "7"), ("exp", .jint 1000)] "7" 7
      (by decide) rfl rfl (by decide) rfl rfl
      (Or.inl (by decide)),
   (csrf_gate_forbidden_and_skip cdcW puuidW ['k'] ['k']
      ⟨"POST", [("flc_access", "C.C.H")], none, none⟩ [7] 150).2
      "GET" none none (by decide)⟩

/-- Concrete live-endpoint database used by witnesses. -/
def liveDbW : LiveDb := { users := [7], members := [⟨10, 5, 7⟩], lenses := [] }

/-- A websocket handshake carrying a valid access cookie and no
anti-forgery material at all. -/
def wsNoCsrf : WsRequest :=
  { accessCookie := some "C.C.H"
    csrfCookie := none
    csrfHeader := none
    calendarIdParam := none
    projectFeedParam := none }

/-- C3 counterexample: a live connection whose handshake carries no
anti-forgery cookie and no anti-forgery header — an unambiguous
anti-forgery failure under the claim — is nevertheless accepted, because
`live_ws` and `_resolve_user_and_project` never consult anti-forgery
material. -/
theorem live_ws_accepts_without_csrf :
    wsNoCsrf.csrfCookie = none ∧ wsNoCsrf.csrfHeader = none
    ∧ liveConnect cdcW puuidW ['k'] 150 liveDbW wsNoCsrf
      = .accepted [projectEventsChannel 5, projectMetaChannel 5] :=
  ⟨rfl, rfl, rfl⟩

/-- C3 (amended): establishing a streaming subscription performs no
anti-forgery check at all — the connection outcome is identical for any
values of the anti-forgery cookie and header; what it does require is a
valid access-token cookie: a missing (or invalid) credential closes the
connection with the unauthenticated code 4401, while a missing project
membership closes with the forbidden code 4403. -/
theorem live_ws_auth_characterization (cdc : Codec)
    (puuid : String → Option Nat) (jwtSecret : Str) (now : Int)
    (db : LiveDb) (ws : WsRequest) :
    (∀ c1 c2 h1 h2,
      liveConnect cdc puuid jwtSecret now db
        { ws with csrfCookie := c1, csrfHeader := h1 }
      = liveConnect cdc puuid jwtSecret now db
        { ws with csrfCookie := c2, csrfHeader := h2 })
    ∧ (ws.calendarIdParam = none → ws.accessCookie = none →
      liveConnect cdc puuid jwtSecret now db ws = .closed 4401)
    ∧ (∀ e, ws.calendarIdParam = none →
      resolve_user_and_project cdc puuid jwtSecret now db ws = .error e →
      (e = .no_membership →
        liveConnect cdc puuid jwtSecret now db ws = .closed 4403)
      ∧ (e ≠ .no_membership →
        liveConnect cdc puuid jwtSecret now db ws = .closed 4401)) := by
  refine ⟨?_, ?_, ?_⟩
  · intro c1 c2 h1 h2
    cases ws
    rfl
  · intro hc hac
    simp [liveConnect, hc, resolve_user_and_project, hac]
  · intro e hc hres
    constructor
    · intro he
      subst he
      simp [liveConnect, hc, hres]
    · intro he
      cases e with
      | no_membership => exact absurd rfl he
      | missing_token => simp [liveConnect, hc, hres]
      | invalid_token => simp [liveConnect, hc, hres]
      | invalid_subject => simp [liveConnect, hc, hres]
      | unknown_user => simp [liveConnect, hc, hres]

/-- Closed instance discharging the hypotheses of
`live_ws_auth_characterization`: a handshake without an access cookie is
closed 4401, and an authenticated user without membership is closed
4403. -/
theorem live_ws_auth_characterization_witness :
    liveConnect cdcW puuidW ['k'] 150 liveDbW
      { accessCookie := none, csrfCookie := none, csrfHeader := none
        calendarIdParam := none, projectFeedParam := none }
      = .closed 4401
    ∧ liveConnect cdcW puuidW ['k'] 150
      { users := [7], members := [], lenses := [] } wsNoCsrf
      = .closed 4403 :=
  ⟨(live_ws_auth_characterization cdcW puuidW ['k'] 150 liveDbW
      { accessCookie := none, csrfCookie := none, csrfHeader := none
        calendarIdParam := none, projectFeedParam := none }).2.1 rfl rfl,
   ((live_ws_auth_characterization cdcW puuidW ['k'] 150
      { users := [7], members := [], lenses := [] } wsNoCsrf).2.2
      .no_membership rfl rfl).1 rfl⟩

/-- C1: once a refresh credential has been used successfully to rotate —
the call revoked the presented record and appended a successor — any
later refresh presenting the same credential is rejected 401, regardless
of the later time (in particular before the record's nominal expiry); and
more generally a refresh whose presented hash finds no record, or finds a
revoked or expired one, is rejected with that same 401 regardless of the
hash match. -/
theorem refresh_rotation_reuse_rejected (hashTok : String → String)
    (d : Int) (st : AuthState) (raw : String) (now : Int) (nr : String)
    (nid : Nat) :
    (∀ st2 ns now2 nr2 nid2,
      refresh_session hashTok d st (some raw) now nr nid = .ok (st2, ns) →
      refresh_session hashTok d st2 (some raw) now2 nr2 nid2
        = .error (401, "Invalid refresh token"))
    ∧ (raw ≠ "" →
      (st.sessions.find? (fun s => s.token_hash == hashTok raw) = none
        ∨ (∃ s, st.sessions.find? (fun s => s.token_hash == hashTok raw) = some s
            ∧ (s.revoked_at.isSome ∨ s.expires_at ≤ now))) →
      refresh_session hashTok d st (some raw) now nr nid
        = .error (401, "Invalid refresh token")) := by
  constructor
  · intro st2 ns now2 nr2 nid2 hok
    simp only [refresh_session] at hok
    by_cases hraw : raw = ""
    · rw [if_pos hraw] at hok
      simp at hok
    · rw [if_neg hraw] at hok
      cases hfind : st.sessions.find? (fun s => s.token_hash == hashTok raw) with
      | none =>
        simp only [hfind] at hok
        simp at hok
      | some s =>
        simp only [hfind] at hok
        by_cases hguard : s.revoked_at.isSome ∨ s.expires_at ≤ now
        · rw [if_pos hguard] at hok
          simp at hok
        · rw [if_neg hguard] at hok
          by_cases huser : s.user_id ∈ st.users
          · rw [if_pos huser] at hok
            cases hmem : st.members.find? (fun m => m.user_id == s.user_id) with
            | none =>
              simp only [hmem] at hok
              simp at hok
            | some m =>
              simp only [hmem] at hok
              by_cases hproj : m.project_id ∈ st.projects
              · rw [if_pos hproj] at hok
                simp only [Except.ok.injEq, Prod.mk.injEq] at hok
                obtain ⟨⟨rfl, -⟩, -⟩ := hok
                simp only [refresh_session]
                rw [if_neg hraw]
                have h1 := find?_updateFirst_self
                  (fun r : RefreshSession => r.token_hash == hashTok raw)
                  (fun r => { r with revoked_at := some now }) st.sessions
                  (fun a ha => ha) s hfind
                have h2 := find?_append_left
                  (fun r : RefreshSession => r.token_hash == hashTok raw) _
                  [{ rid := nid, user_id := s.user_id
                     token_hash := hashTok nr
                     expires_at := now + (if s.remember_me then d else 1) * 86400
                     revoked_at := none, remember_me := s.remember_me
                     rotated_from_id := some s.rid }] _ h1
                simp only [h2]
                simp
              · rw [if_neg hproj] at hok
                simp at hok
          · rw [if_neg huser] at hok
            simp at hok
  · intro hraw hcase
    rcases hcase with hnone | ⟨s, hfind, hbad⟩
    · simp only [refresh_session]
      rw [if_neg hraw]
      simp [hnone]
    · simp only [refresh_session]
      rw [if_neg hraw]
      simp only [hfind]
      rw [if_pos hbad]

/-- The state before a successful rotation, used by witnesses: one user,
one membership, one project, one active refresh record. -/
def stW : AuthState :=
  { users := [1], members := [⟨2, 3, 1⟩], projects := [3]
    sessions := [⟨1, 1, "r", 1000, none, false, none⟩] }

/-- The state after rotating `stW` with raw token `"r"` at time 10: the
old record is revoked and a successor rotated from it is appended. -/
def stW2 : AuthState :=
  { users := [1], members := [⟨2, 3, 1⟩], projects := [3]
    sessions := [⟨1, 1, "r", 1000, some 10, false, none⟩,
      ⟨2, 1, "r2", 86410, none, false, some 1⟩] }

/-- Closed instance discharging the hypotheses of
`refresh_rotation_reuse_rejected`: replaying the consumed credential
after a successful rotation fails, as does presenting an unknown one. -/
theorem refresh_rotation_reuse_rejected_witness :
    refresh_session (fun s => s) 30 stW2 (some "r") 20 "r3" 3
      = .error (401, "Invalid refresh token")
    ∧ refresh_session (fun s => s) 30 stW (some "nope") 20 "r3" 3
      = .error (401, "Invalid refresh token") :=
  ⟨(refresh_rotation_reuse_rejected (fun s => s) 30 stW "r" 10 "r2" 2).1
      stW2 ⟨2, 1, "r2", 86410, none, false, some 1⟩ 20 "r3" 3 rfl,
   (refresh_rotation_reuse_rejected (fun s => s) 30 stW "nope" 20 "r3" 3).2
      (by decide) (Or.inl (by decide))⟩

/-- C2: when `change_password` succeeds (which requires the rate limit, a
stored hash, and re-proof of the current password), every refresh session
of the subject in the resulting store carries a revocation timestamp —
those that were active before the change were just revoked, the rest
already carried one — and consequently any refresh attempt whose
presented credential resolves to a record of that subject is rejected
401. -/
theorem password_change_revokes_all_sessions
    (verifyPwd : String → String → Bool) (newHashVal : String)
    (rateAllowed : Bool) (user : UserRec) (currentPassword : String)
    (sessions : List RefreshSession) (now : Int) (user2 : UserRec)
    (sessions2 : List RefreshSession)
    (hok : change_password verifyPwd newHashVal rateAllowed user
      currentPassword sessions now = .ok (user2, sessions2)) :
    (∀ r ∈ sessions2, r.user_id = user.uid → r.revoked_at.isSome = true)
    ∧ (∀ (hashTok : String → String) (d : Int) (st : AuthState)
        (raw : String) (now2 : Int) (nr : String) (nid : Nat),
      st.sessions = sessions2 → raw ≠ "" →
      (∀ s, sessions2.find? (fun r => r.token_hash == hashTok raw) = some s →
        s.user_id = user.uid) →
      refresh_session hashTok d st (some raw) now2 nr nid
        = .error (401, "Invalid refresh token")) := by
  have hsess : sessions2 = sessions.map (fun r =>
      if r.user_id == user.uid && r.revoked_at.isNone then
        { r with revoked_at := some now }
      else r) := by
    simp only [change_password] at hok
    split at hok
    · simp at hok
    · split at hok
      · simp at hok
      · split at hok
        · simp at hok
        · split at hok
          · simp at hok
          · simp only [Except.ok.injEq, Prod.mk.injEq] at hok
            exact hok.2.symm
  have hall : ∀ r ∈ sessions2, r.user_id = user.uid →
      r.revoked_at.isSome = true := by
    intro r hr huid
    rw [hsess] at hr
    obtain ⟨r0, hr0, hfr⟩ := List.mem_map.mp hr
    subst hfr
    by_cases hc : (r0.user_id == user.uid && r0.revoked_at.isNone) = true
    · rw [if_pos hc]
      rfl
    · have hc' : (r0.user_id == user.uid && r0.revoked_at.isNone) = false :=
        Bool.eq_false_iff.mpr hc
      rw [if_neg (by simp [hc'])] at huid ⊢
      have hb : (r0.user_id == user.uid) = true := beq_iff_eq.mpr huid
      rw [hb] at hc'
      simp only [Bool.true_and] at hc'
      cases hv : r0.revoked_at with
      | none =>
        rw [hv] at hc'
        simp at hc'
      | some t => rfl
  refine ⟨hall, ?_⟩
  intro hashTok d st raw now2 nr nid hst hraw hfind_uid
  cases hfind : st.sessions.find? (fun r => r.token_hash == hashTok raw) with
  | none =>
    simp only [refresh_session]
    rw [if_neg hraw]
    simp [hfind]
  | some s =>
    have hs_uid := hfind_uid s (by rw [← hst]; exact hfind)
    have hs_mem : s ∈ st.sessions := List.mem_of_find?_eq_some hfind
    rw [hst] at hs_mem
    have hrev := hall s hs_mem hs_uid
    simp only [refresh_session]
    rw [if_neg hraw]
    simp only [hfind]
    rw [if_pos (Or.inl hrev)]

/-- Two active refresh chains of subject 1 before a password change. -/
def sessW : List RefreshSession :=
  [⟨1, 1, "r", 1000, none, false, none⟩, ⟨2, 1, "q", 1000, none, true, none⟩]

/-- The same two chains after the password change at time 50. -/
def sessW2 : List RefreshSession :=
  [⟨1, 1, "r", 1000, some 50, false, none⟩,
   ⟨2, 1, "q", 1000, some 50, true, none⟩]

/-- Closed instance discharging the hypotheses of
`password_change_revokes_all_sessions`: after a successful password
change both previously active chains are revoked and a refresh presenting
the first chain's credential fails. -/
theorem password_change_revokes_all_sessions_witness :
    (∀ r ∈ sessW2, r.user_id = (UserRec.mk 1 (some "pw") "local").uid →
      r.revoked_at.isSome = true)
    ∧ refresh_session (fun s => s) 30 ⟨[1], [⟨2, 3, 1⟩], [3], sessW2⟩
      (some "r") 60 "r3" 9 = .error (401, "Invalid refresh token") :=
  ⟨(password_change_revokes_all_sessions (fun a b => a == b) "NH" true
      ⟨1, some "pw", "local"⟩ "pw" sessW 50 ⟨1, some "NH", "local"⟩ sessW2
      rfl).1,
   (password_change_revokes_all_sessions (fun a b => a == b) "NH" true
      ⟨1, some "pw", "local"⟩ "pw" sessW 50 ⟨1, some "NH", "local"⟩ sessW2
      rfl).2 (fun s => s) 30 ⟨[1], [⟨2, 3, 1⟩], [3], sessW2⟩ "r" 60
      "r3" 9 rfl (by decide)
      (fun s hs => by
        have hval : sessW2.find? (fun r => r.token_hash == (fun s => s) "r")
            = some ⟨1, 1, "r", 1000, some 50, false, none⟩ := rfl
        rw [hval] at hs
        injection hs with h
        rw [← h])⟩

end FamilyTracker
